import Mathlib

/-!
Verification of the NHL Stats Analyzer stat-derivation engine (src/app.py).

The Python source is shallowly embedded: per-game records become structures,
pandas column operations become list functions, Python exceptions become
`Except`, and floats are idealized as rationals.  Every definition below is
translated from a specific place in `src/app.py`, noted in its doc comment.
-/

namespace NHLApp

/-! ### Time parsing (`parse_toi`, src/app.py lines 56-63)

`parse_toi` does `mm, ss = map(int, toi_str.split(':'))` inside a bare
`try/except` returning `0.0` on any failure.  We model Python `str.split(':')`
and `int(...)` on character lists. -/

/-- Model of Python `str.split(':')` on the character list of the string:
splits at every colon, keeping empty pieces. -/
def splitColon : List Char → List (List Char)
  | [] => [[]]
  | c :: rest =>
    if c = ':' then [] :: splitColon rest
    else
      match splitColon rest with
      | [] => [[c]]
      | p :: ps => (c :: p) :: ps

/-- Tail of Python's integer-literal grammar after the leading digit:
digits with single underscores allowed only between digits. -/
def tailDigitsOk : List Char → Bool
  | [] => true
  | c :: rest =>
    if c = '_' then
      match rest with
      | [] => false
      | d :: rest2 => d.isDigit && tailDigitsOk rest2
    else c.isDigit && tailDigitsOk rest

/-- Python's unsigned integer-literal grammar: a nonempty digit string with
single underscores allowed between digits (as accepted by `int(...)`). -/
def digitsOk : List Char → Bool
  | [] => false
  | c :: rest => c.isDigit && tailDigitsOk rest

/-- Numeric value of a digit string, ignoring underscores (base 10). -/
def digitsVal (l : List Char) : ℕ :=
  l.foldl (fun acc c => if c = '_' then acc else 10 * acc + (c.toNat - 48)) 0

/-- Strip leading and trailing whitespace, as Python `int(...)` does before
parsing. -/
def stripSpaces (l : List Char) : List Char :=
  ((l.dropWhile Char.isWhitespace).reverse.dropWhile Char.isWhitespace).reverse

/-- Model of Python `int(s)` on a character list: optional sign, then a digit
string (underscores between digits allowed), surrounding whitespace stripped;
`none` models the `ValueError` that the caller's `except` catches. -/
def pyInt (l : List Char) : Option ℤ :=
  match stripSpaces l with
  | '-' :: rest => if digitsOk rest then some (-(digitsVal rest : ℤ)) else none
  | '+' :: rest => if digitsOk rest then some ((digitsVal rest : ℤ)) else none
  | t => if digitsOk t then some ((digitsVal t : ℤ)) else none

/-- `parse_toi` (src/app.py lines 56-63): empty string short-circuits to `0.0`;
otherwise split on `':'`, require exactly two integer parts, return
`mm + ss / 60.0`; any failure (wrong shape, non-integer part) returns `0.0`. -/
def parse_toi (s : String) : ℚ :=
  if s.data = [] then 0
  else
    match splitColon s.data with
    | [a, b] =>
      match pyInt a, pyInt b with
      | some mm, some ss => (mm : ℚ) + (ss : ℚ) / 60
      | _, _ => 0
    | _ => 0

example : parse_toi "12:30" = 12 + 30 / 60 := by rfl
example : parse_toi "-1:30" = -1 + 30 / 60 := by rfl
example : parse_toi "" = 0 := by rfl
example : parse_toi "xx:30" = 0 := by rfl
example : parse_toi "1:2:3" = 0 := by rfl
example : parse_toi "00:00" = 0 := by
  have h : parse_toi "00:00" = ((0 : ℤ) : ℚ) + ((0 : ℤ) : ℚ) / 60 := rfl
  rw [h]; norm_num
example : parse_toi " 5:06" = 5 + 6 / 60 := by rfl

/-! ### Data model for the aggregation engine (src/app.py lines 226-375)

After normalization every numeric column is present, so a fully populated
per-game record is modelled with total fields.  Integer box-score stats stay
in `ℤ` (plus/minus may be negative), clock-derived values in `ℚ`. -/

/-- Analysis mode, from the `mode_key` values at src/app.py lines 212-214. -/
inductive Mode where
  | cumulative
  | projection
  | distribution
deriving DecidableEq, Repr

/-- Metric identifier: the union of all `metric_id` keys of `METRIC_OPTIONS`
(src/app.py lines 20-46). -/
inductive MetricId where
  | points
  | goals
  | assists
  | shots
  | plusMinus
  | evenStrengthPoints
  | shootingPct
  | toi
  | esToi
  | evenStrengthPct
  | pointsComp
  | pointsSit
  | goalsSit
  | assistsSit
deriving DecidableEq, Repr

/-- The closed metric enumeration of each mode (`METRIC_OPTIONS`,
src/app.py lines 20-46). -/
def metricOptions : Mode → List MetricId
  | .cumulative => [.points, .goals, .assists, .shots, .plusMinus, .evenStrengthPoints]
  | .projection =>
      [.points, .goals, .assists, .shots, .shootingPct, .toi, .esToi, .evenStrengthPct,
        .plusMinus]
  | .distribution => [.pointsComp, .pointsSit, .goalsSit, .assistsSit]

/-- One normalized per-game record with every stat column present: the row the
engine loops over after the defaulting block of src/app.py lines 244-250. -/
structure Game where
  goals : ℤ
  assists : ℤ
  points : ℤ
  shots : ℤ
  plusMinus : ℤ
  powerPlayPoints : ℤ
  shorthandedPoints : ℤ
  powerPlayGoals : ℤ
  shorthandedGoals : ℤ
  toi_val : ℚ
  pp_toi_val : ℚ
  sh_toi_val : ℚ
deriving DecidableEq, Repr

/-- Per-row metric dispatch (src/app.py lines 288-299): the `val = 0` start
followed by the `if/elif` chain; metric ids matching no branch keep `0`. -/
def stat_val (m : MetricId) (r : Game) : ℚ :=
  match m with
  | .points => (r.points : ℚ)
  | .goals => (r.goals : ℚ)
  | .assists => (r.assists : ℚ)
  | .plusMinus => (r.plusMinus : ℚ)
  | .shots => (r.shots : ℚ)
  | .toi => r.toi_val
  | .esToi => max 0 (r.toi_val - r.pp_toi_val - r.sh_toi_val)
  | .evenStrengthPoints =>
      (r.points : ℚ) - ((r.powerPlayPoints : ℚ) + (r.shorthandedPoints : ℚ))
  | _ => 0

/-- Cumulative sum of a per-game quantity over the first `g` games: the value
of a `cumsum` column (src/app.py lines 303-307) at 1-based game index `g`. -/
def cumAt (f : Game → ℚ) (gs : List Game) (g : ℕ) : ℚ :=
  ((gs.take g).map f).sum

/-- Per-game goals as `ℚ` (the `goals` column). -/
def goalsQ (r : Game) : ℚ := (r.goals : ℚ)

/-- Per-game shots as `ℚ` (the `shots` column). -/
def shotsQ (r : Game) : ℚ := (r.shots : ℚ)

/-- Per-game points as `ℚ` (the `points` column). -/
def pointsQ (r : Game) : ℚ := (r.points : ℚ)

/-- Per-game special-teams points (the `powerPlayPoints + shorthandedPoints`
column of src/app.py line 307). -/
def specQ (r : Game) : ℚ := ((r.powerPlayPoints : ℚ) + (r.shorthandedPoints : ℚ))

/-- The `res` value of the y-value loop (src/app.py lines 311-324) at 1-based
game index `g`: rate metrics from cumulative ratios with zero-guards, per-game
averages for TOI metrics (and shots under projection), else the running sum. -/
def res_at (mode : Mode) (m : MetricId) (gs : List Game) (g : ℕ) : ℚ :=
  match m with
  | .shootingPct =>
      if 0 < cumAt shotsQ gs g then cumAt goalsQ gs g / cumAt shotsQ gs g * 100 else 0
  | .evenStrengthPct =>
      if 0 < cumAt pointsQ gs g then
        (cumAt pointsQ gs g - cumAt specQ gs g) / cumAt pointsQ gs g * 100
      else 0
  | .toi => cumAt (stat_val .toi) gs g / (g : ℚ)
  | .esToi => cumAt (stat_val .esToi) gs g / (g : ℚ)
  | .shots =>
      match mode with
      | .projection => cumAt (stat_val .shots) gs g / (g : ℚ)
      | _ => cumAt (stat_val .shots) gs g
  | m => cumAt (stat_val m) gs g

/-- The `is_rate` test of src/app.py lines 328 and 367. -/
def is_rate (m : MetricId) : Bool :=
  match m with
  | .shootingPct | .evenStrengthPct | .toi | .esToi | .shots => true
  | _ => false

/-- The plotted value `y_final` (src/app.py lines 326-334) at 1-based game
index `g`: under projection mode non-rate metrics are pace-projected by
`(res / gp) * 82`, everything else reports `res` unchanged. -/
def y_final (mode : Mode) (m : MetricId) (gs : List Game) (g : ℕ) : ℚ :=
  let res := res_at mode m gs g
  match mode with
  | .projection => if is_rate m then res else res / (g : ℚ) * 82
  | _ => res

/-- The `r_res` value of the rolling-window loop (src/app.py lines 348-364) on
a 10-game window `w`: window sums with the same dispatch, divisor fixed at
10. -/
def roll_res (m : MetricId) (w : List Game) : ℚ :=
  match m with
  | .shootingPct =>
      if 0 < (w.map shotsQ).sum then (w.map goalsQ).sum / (w.map shotsQ).sum * 100 else 0
  | .evenStrengthPct =>
      if 0 < (w.map pointsQ).sum then
        ((w.map pointsQ).sum - (w.map specQ).sum) / (w.map pointsQ).sum * 100
      else 0
  | .toi => (w.map (stat_val .toi)).sum / 10
  | .esToi => (w.map (stat_val .esToi)).sum / 10
  | .shots => (w.map (stat_val .shots)).sum / 10
  | m => (w.map (stat_val m)).sum

/-- One entry of the `roll_y` list (src/app.py lines 339-373) at 0-based row
position `idx`: `none` (Python `None`) before the tenth game, otherwise the
trailing 10-game value, pace-projected by `(r_res / 10) * 82` for non-rate
metrics. -/
def roll_y_at (m : MetricId) (gs : List Game) (idx : ℕ) : Option ℚ :=
  if idx < 9 then none
  else
    let w := (gs.drop (idx - 9)).take 10
    let r := roll_res m w
    some (if is_rate m then r else r / 10 * 82)

/-- Season totals of distribution mode (the `totals` dict,
src/app.py lines 253-266). -/
structure Totals where
  goals : ℤ
  assists : ℤ
  points : ℤ
  pp_goals : ℤ
  sh_goals : ℤ
  pp_points : ℤ
  sh_points : ℤ
  es_goals : ℤ
  es_points : ℤ
  pp_assists : ℤ
  sh_assists : ℤ
  es_assists : ℤ
deriving DecidableEq, Repr

/-- Sum of an integer column over the whole season (`df[col].sum()`). -/
def sumCol (gs : List Game) (f : Game → ℤ) : ℤ := (gs.map f).sum

/-- The `totals` dict of distribution mode (src/app.py lines 253-266):
even-strength buckets by subtraction, assists buckets as points minus goals. -/
def totals (gs : List Game) : Totals :=
  { goals := sumCol gs (fun r => r.goals)
    assists := sumCol gs (fun r => r.assists)
    points := sumCol gs (fun r => r.points)
    pp_goals := sumCol gs (fun r => r.powerPlayGoals)
    sh_goals := sumCol gs (fun r => r.shorthandedGoals)
    pp_points := sumCol gs (fun r => r.powerPlayPoints)
    sh_points := sumCol gs (fun r => r.shorthandedPoints)
    es_goals := sumCol gs (fun r => r.goals) - sumCol gs (fun r => r.powerPlayGoals)
      - sumCol gs (fun r => r.shorthandedGoals)
    es_points := sumCol gs (fun r => r.points) - sumCol gs (fun r => r.powerPlayPoints)
      - sumCol gs (fun r => r.shorthandedPoints)
    pp_assists := sumCol gs (fun r => r.powerPlayPoints) - sumCol gs (fun r => r.powerPlayGoals)
    sh_assists := sumCol gs (fun r => r.shorthandedPoints)
      - sumCol gs (fun r => r.shorthandedGoals)
    es_assists := sumCol gs (fun r => r.assists)
      - (sumCol gs (fun r => r.powerPlayPoints) - sumCol gs (fun r => r.powerPlayGoals))
      - (sumCol gs (fun r => r.shorthandedPoints)
        - sumCol gs (fun r => r.shorthandedGoals)) }

/-! ### Per-game record normalizer (src/app.py lines 236-250)

A raw feed record may lack any field, so every field is optional.  A pandas
DataFrame built from a list of dicts has a column exactly when at least one
record carries the field; `df['col']` on an absent column raises `KeyError`,
while a present column shows `NaN`/`None` at records missing the field.
`none` in a `NormRow` numeric field models such a pandas `NaN`. -/

/-- One raw game record as delivered by the game-log provider: every field may
be absent (src/app.py reads them out of `log['gameLog']`). -/
structure RawGame where
  gameDate : Option ℤ
  toi : Option String
  powerPlayToi : Option String
  shorthandedToi : Option String
  goals : Option ℤ
  assists : Option ℤ
  points : Option ℤ
  shots : Option ℤ
  plusMinus : Option ℤ
  powerPlayPoints : Option ℤ
  shorthandedPoints : Option ℤ
  powerPlayGoals : Option ℤ
  shorthandedGoals : Option ℤ
deriving DecidableEq, Repr

/-- A DataFrame built from `rows` has a column iff some record carries the
field. -/
def hasCol {α : Type} (rows : List RawGame) (f : RawGame → Option α) : Bool :=
  rows.any fun r => (f r).isSome

/-- Date order used by `sort_values('date_obj')`: missing dates (`NaT`) sort
last (pandas `na_position='last'`). -/
def dateLE (a b : Option ℤ) : Prop :=
  match a, b with
  | some x, some y => x ≤ y
  | some _, none => True
  | none, some _ => False
  | none, none => True

instance : DecidableRel dateLE := fun a b =>
  match a, b with
  | some x, some y => inferInstanceAs (Decidable (x ≤ y))
  | some _, none => .isTrue trivial
  | none, some _ => .isFalse fun h => h
  | none, none => .isTrue trivial

/-- Row comparison of the chronological sort (src/app.py line 241). -/
def rowLE (a b : RawGame) : Prop := dateLE a.gameDate b.gameDate

instance : DecidableRel rowLE := fun a b =>
  inferInstanceAs (Decidable (dateLE a.gameDate b.gameDate))

instance : IsTotal RawGame rowLE where
  total a b := by
    unfold rowLE dateLE
    cases a.gameDate <;> cases b.gameDate <;> simp
    exact le_total _ _

instance : IsTrans RawGame rowLE where
  trans a b c := by
    unfold rowLE dateLE
    cases a.gameDate <;> cases b.gameDate <;> cases c.gameDate <;> simp
    exact le_trans

/-- A normalized per-game row: the DataFrame row after sorting, index
assignment, TOI parsing and column defaulting (src/app.py lines 240-250).
Numeric fields stay optional: `none` models a pandas `NaN` at a record that
lacked the field while other records carried it. -/
structure NormRow where
  gameDate : Option ℤ
  game_number : ℕ
  toi_val : ℚ
  pp_toi_val : ℚ
  sh_toi_val : ℚ
  goals : Option ℤ
  assists : Option ℤ
  points : Option ℤ
  shots : Option ℤ
  plusMinus : Option ℤ
  powerPlayPoints : Option ℤ
  shorthandedPoints : Option ℤ
  powerPlayGoals : Option ℤ
  shorthandedGoals : Option ℤ
deriving DecidableEq, Repr

/-- `parse_toi` applied to a cell of a present clock column: a missing cell is
a pandas `NaN`, whose `.split` raises inside `parse_toi`'s bare `except`,
yielding `0.0`. -/
def optParseToi : Option String → ℚ
  | some s => parse_toi s
  | none => 0

/-- A numeric cell after the defaulting loop (src/app.py lines 248-250): an
absent column is filled with `0`; a present column keeps the record's value
(`none` = `NaN` where the record lacked it). -/
def numCol (rows : List RawGame) (f : RawGame → Option ℤ) (r : RawGame) : Option ℤ :=
  if hasCol rows f then f r else some 0

/-- Build one normalized row with 1-based index `n` (src/app.py lines 242-250).
`powerPlayToi`/`shorthandedToi` go through `df.get(col, Series of '00:00')`:
an absent column parses `"00:00"`, i.e. `0`. -/
def mkNorm (rows : List RawGame) (n : ℕ) (r : RawGame) : NormRow :=
  { gameDate := r.gameDate
    game_number := n
    toi_val := optParseToi r.toi
    pp_toi_val :=
      if hasCol rows (fun r => r.powerPlayToi) then optParseToi r.powerPlayToi
      else parse_toi "00:00"
    sh_toi_val :=
      if hasCol rows (fun r => r.shorthandedToi) then optParseToi r.shorthandedToi
      else parse_toi "00:00"
    goals := numCol rows (fun r => r.goals) r
    assists := numCol rows (fun r => r.assists) r
    points := numCol rows (fun r => r.points) r
    shots := numCol rows (fun r => r.shots) r
    plusMinus := numCol rows (fun r => r.plusMinus) r
    powerPlayPoints := numCol rows (fun r => r.powerPlayPoints) r
    shorthandedPoints := numCol rows (fun r => r.shorthandedPoints) r
    powerPlayGoals := numCol rows (fun r => r.powerPlayGoals) r
    shorthandedGoals := numCol rows (fun r => r.shorthandedGoals) r }

/-- Normalize a sorted record list, assigning indices `n, n+1, ...` in order
(`df['game_number'] = df.index + 1`, src/app.py line 242). -/
def buildRows (rows : List RawGame) (n : ℕ) : List RawGame → List NormRow
  | [] => []
  | r :: rs => mkNorm rows n r :: buildRows rows (n + 1) rs

/-- The normalization block (src/app.py lines 240-250): direct accesses
`df['gameDate']` and `df['toi']` raise `KeyError` when no record carries the
field; otherwise sort chronologically, assign game numbers `1..N`, parse the
clocks and default the numeric columns. -/
def normalizeLog (rows : List RawGame) : Except String (List NormRow) :=
  if hasCol rows (fun r => r.gameDate) = false then .error "KeyError: gameDate"
  else if hasCol rows (fun r => r.toi) = false then .error "KeyError: toi"
  else .ok (buildRows rows 1 (List.insertionSort rowLE rows))

/-- The per-selection loop of an analysis run (src/app.py lines 235-250 and
375): a selection whose fetch failed or lacks a `gameLog` key (`none`) is
skipped; a present log is normalized and collected into `all_dfs`; an uncaught
exception aborts the whole run. -/
def processSelections : List (Option (List RawGame)) → Except String (List (List NormRow))
  | [] => .ok []
  | none :: rest => processSelections rest
  | some rows :: rest =>
    match normalizeLog rows with
    | .error e => .error e
    | .ok norm =>
      match processSelections rest with
      | .error e => .error e
      | .ok others => .ok (norm :: others)

/-! ### Player selection (`add_player`, src/app.py lines 103-135) -/

/-- One entry of `details['seasonTotals']`. -/
structure SeasonTotal where
  season : ℤ
  leagueAbbrev : String
  gameTypeId : ℤ
deriving DecidableEq, Repr

/-- The player-details payload, reduced to the fields `add_player` reads.
`none` for `seasonTotals` models an absent `'seasonTotals'` key; a `none`
details value models a falsy `get_player_details` result. -/
structure PlayerDetails where
  seasonTotals : Option (List SeasonTotal)
  seasonId : Option ℤ
deriving DecidableEq, Repr

/-- The search-result dict passed to `add_player`. -/
structure PlayerData where
  playerId : ℤ
  name : Option String
  teamAbbrev : Option String
deriving DecidableEq, Repr

/-- One entry of `st.session_state.players`.  The `instance_id` wall-clock
timestamp is omitted: it is only a UI widget key. -/
structure Selection where
  id : ℤ
  name : String
  team : String
  selected_season : ℤ
  available_seasons : List ℤ
  color_idx : ℕ
deriving DecidableEq, Repr

/-- The `seen`-set deduplication loop of src/app.py lines 117-121: keeps the
first occurrence of each season. -/
def dedupKeepFirst (l : List ℤ) : List ℤ :=
  l.foldl (fun acc s => if s ∈ acc then acc else acc ++ [s]) []

instance : DecidableRel (fun a b : ℤ => b ≤ a) := fun a b =>
  inferInstanceAs (Decidable (b ≤ a))

/-- `seasons.sort(reverse=True)` (src/app.py line 122). -/
def sortDescSeasons (l : List ℤ) : List ℤ :=
  List.insertionSort (fun a b : ℤ => b ≤ a) l

/-- The season enumeration of `add_player` (src/app.py lines 114-125): NHL
regular-season entries, deduplicated, sorted descending; falls back to
`[details.get('seasonId', 20232024)]` when empty. -/
def seasonsOf (d : PlayerDetails) : List ℤ :=
  let fromTotals :=
    match d.seasonTotals with
    | some sts =>
        sortDescSeasons (dedupKeepFirst
          ((sts.filter fun s => decide (s.leagueAbbrev = "NHL" ∧ s.gameTypeId = 2)).map
            fun s => s.season))
    | none => []
  if fromTotals = [] then [d.seasonId.getD 20232024] else fromTotals

/-- `add_player` (src/app.py lines 103-135): reject when 3 selections already
exist or the details fetch yields no data; otherwise append one fully built
selection, its color index equal to the previous list length. -/
def add_player (players : List Selection) (details : Option PlayerDetails)
    (pdata : PlayerData) : List Selection :=
  if 3 ≤ players.length then players
  else
    match details with
    | none => players
    | some d =>
      let seasons := seasonsOf d
      players ++ [{ id := pdata.playerId,
                    name := pdata.name.getD "Unknown",
                    team := pdata.teamAbbrev.getD "NHL",
                    selected_season := seasons.headI,
                    available_seasons := seasons,
                    color_idx := players.length }]

/-- A small concrete game used in examples and witnesses. -/
def demoGame : Game :=
  { goals := 1, assists := 1, points := 2, shots := 3, plusMinus := 1,
    powerPlayPoints := 1, shorthandedPoints := 0, powerPlayGoals := 0,
    shorthandedGoals := 0, toi_val := 20, pp_toi_val := 3, sh_toi_val := 1 }

/-- An eleven-game log with one point per game (Scenario B of the spec). -/
def demoLog : List Game := List.replicate 11 demoGame

example : y_final .cumulative .points demoLog 3 = 6 := by
  norm_num [y_final, res_at, cumAt, stat_val, demoLog, demoGame, List.replicate]

example : y_final .projection .points demoLog 3 = 2 * 82 := by
  norm_num [y_final, res_at, cumAt, stat_val, is_rate, demoLog, demoGame, List.replicate]

example : roll_y_at .points demoLog 5 = none := by rfl

example : roll_y_at .points demoLog 9 = some (2 * 82) := by
  norm_num [roll_y_at, roll_res, stat_val, is_rate, demoLog, demoGame, List.replicate]

example : y_final .projection .shootingPct demoLog 2 = 2 / 6 * 100 := by
  norm_num [y_final, res_at, cumAt, goalsQ, shotsQ, is_rate, demoLog, demoGame,
    List.replicate]

/-! ### Helper lemmas -/

/-- A digit character is not whitespace. -/
lemma digit_not_whitespace {c : Char} (h : c.isDigit = true) : c.isWhitespace = false := by
  by_contra hw
  have hw' : c.isWhitespace = true := by
    cases hcw : c.isWhitespace
    · exact absurd hcw hw
    · rfl
  have hc : ((c = ' ' ∨ c = '\t') ∨ c = '\r') ∨ c = '\n' := by
    simpa [Char.isWhitespace] using hw'
  rcases hc with ((rfl | rfl) | rfl) | rfl <;> exact absurd h (by decide)

/-- A digit character is not an underscore. -/
lemma digit_ne_underscore {c : Char} (h : c.isDigit = true) : c ≠ '_' := by
  intro hc
  subst hc
  exact absurd h (by decide)

/-- A digit character is not a colon. -/
lemma digit_ne_colon {c : Char} (h : c.isDigit = true) : c ≠ ':' := by
  intro hc
  subst hc
  exact absurd h (by decide)

/-- A digit character is not a sign. -/
lemma digit_ne_sign {c : Char} (h : c.isDigit = true) : c ≠ '-' ∧ c ≠ '+' := by
  constructor <;> intro hc <;> subst hc <;> exact absurd h (by decide)

lemma dropWhile_ws_of_digits {l : List Char} (h : ∀ c ∈ l, c.isDigit) :
    l.dropWhile Char.isWhitespace = l := by
  cases l with
  | nil => rfl
  | cons c t =>
      rw [List.dropWhile_cons]
      simp [digit_not_whitespace (h c (List.mem_cons_self c t))]

lemma stripSpaces_of_digits {l : List Char} (h : ∀ c ∈ l, c.isDigit) :
    stripSpaces l = l := by
  unfold stripSpaces
  rw [dropWhile_ws_of_digits h, dropWhile_ws_of_digits, List.reverse_reverse]
  intro c hc
  exact h c (List.mem_reverse.mp hc)

lemma tailDigitsOk_of_digits {l : List Char} (h : ∀ c ∈ l, c.isDigit) :
    tailDigitsOk l = true := by
  induction l with
  | nil => rfl
  | cons c t ih =>
      unfold tailDigitsOk
      rw [if_neg (digit_ne_underscore (h c (List.mem_cons_self c t)))]
      simp [h c (List.mem_cons_self c t), ih fun d hd => h d (List.mem_cons_of_mem c hd)]

lemma digitsOk_of_digits {l : List Char} (h : ∀ c ∈ l, c.isDigit) (hne : l ≠ []) :
    digitsOk l = true := by
  cases l with
  | nil => exact absurd rfl hne
  | cons c t =>
      unfold digitsOk
      simp [h c (List.mem_cons_self c t),
        tailDigitsOk_of_digits fun d hd => h d (List.mem_cons_of_mem c hd)]

/-- `int(...)` succeeds on a nonempty digit string and returns its value. -/
lemma pyInt_of_digits {l : List Char} (h : ∀ c ∈ l, c.isDigit) (hne : l ≠ []) :
    pyInt l = some ((digitsVal l : ℤ)) := by
  unfold pyInt
  rw [stripSpaces_of_digits h]
  cases l with
  | nil => exact absurd rfl hne
  | cons c t =>
      have hd := h c (List.mem_cons_self c t)
      have hok : digitsOk (c :: t) = true := digitsOk_of_digits h hne
      rcases digit_ne_sign hd with ⟨hminus, hplus⟩
      split
      · rename_i heq
        exact absurd (List.cons.injEq .. ▸ heq).1 hminus
      · rename_i heq
        exact absurd (List.cons.injEq .. ▸ heq).1 hplus
      · rw [hok]
        rfl

lemma splitColon_append {a : List Char} (b : List Char) (ha : ':' ∉ a) :
    splitColon (a ++ ':' :: b) = a :: splitColon b := by
  induction a with
  | nil => simp [splitColon]
  | cons c a' ih =>
      have hc : c ≠ ':' := fun h => ha (h ▸ List.mem_cons_self c a')
      have ih' := ih fun h => ha (List.mem_cons_of_mem c h)
      show (if c = ':' then [] :: splitColon (a' ++ ':' :: b)
            else
              match splitColon (a' ++ ':' :: b) with
              | [] => [[c]]
              | p :: ps => (c :: p) :: ps)
          = (c :: a') :: splitColon b
      rw [if_neg hc, ih']

lemma splitColon_of_no_colon {b : List Char} (hb : ':' ∉ b) : splitColon b = [b] := by
  induction b with
  | nil => rfl
  | cons c b' ih =>
      have hc : c ≠ ':' := fun h => hb (h ▸ List.mem_cons_self c b')
      have ih' := ih fun h => hb (List.mem_cons_of_mem c h)
      simp only [splitColon, if_neg hc, ih']

/-- Cumulative sums of an everywhere-zero column vanish. -/
lemma cumAt_of_zero_fn {f : Game → ℚ} (hf : ∀ r : Game, f r = 0) (gs : List Game) (g : ℕ) :
    cumAt f gs g = 0 := by
  unfold cumAt
  apply List.sum_eq_zero
  intro x hx
  rcases List.mem_map.mp hx with ⟨r, _, rfl⟩
  exact hf r

/-- Cumulative sums of a pointwise non-negative column are non-negative. -/
lemma cumAt_nonneg {f : Game → ℚ} {gs : List Game} (hf : ∀ r ∈ gs, 0 ≤ f r) (g : ℕ) :
    0 ≤ cumAt f gs g := by
  unfold cumAt
  apply List.sum_nonneg
  intro x hx
  rcases List.mem_map.mp hx with ⟨r, hr, rfl⟩
  exact hf r (List.take_subset g gs hr)

/-- One step of a cumulative sum: adding the next game only adds its
(non-negative) per-game value. -/
lemma cumAt_le_succ {f : Game → ℚ} {gs : List Game} (hf : ∀ r ∈ gs, 0 ≤ f r) (g : ℕ) :
    cumAt f gs g ≤ cumAt f gs (g + 1) := by
  unfold cumAt
  rw [List.take_succ, List.map_append, List.sum_append]
  have hextra : 0 ≤ ((gs[g]?.toList).map f).sum := by
    apply List.sum_nonneg
    intro x hx
    rcases List.mem_map.mp hx with ⟨r, hr, rfl⟩
    cases hg : gs[g]? with
    | none => rw [hg] at hr; simp at hr
    | some r2 =>
        rw [hg] at hr
        simp at hr
        subst hr
        exact hf _ (List.getElem?_mem hg)
  linarith

/-! ### Claim theorems -/

/-- C3: for every distribution summary the three situational buckets sum
exactly to the season total, for goals, points and assists (assists buckets
derived as points minus goals). -/
theorem distribution_buckets_sum_to_total (gs : List Game) :
    (totals gs).es_goals + (totals gs).pp_goals + (totals gs).sh_goals = (totals gs).goals
    ∧ (totals gs).es_points + (totals gs).pp_points + (totals gs).sh_points
        = (totals gs).points
    ∧ (totals gs).es_assists + (totals gs).pp_assists + (totals gs).sh_assists
        = (totals gs).assists := by
  refine ⟨?_, ?_, ?_⟩ <;> simp only [totals] <;> ring

/-- C9 counterexample: `parse_toi` is not non-negative on every input — the
string `"-1:30"` parses (Python `int` accepts a sign) and yields `-0.5`. -/
theorem parse_toi_negative_counterexample : parse_toi "-1:30" < 0 := by
  have h : parse_toi "-1:30" = ((-1 : ℤ) : ℚ) + ((30 : ℤ) : ℚ) / 60 := rfl
  rw [h]
  norm_num

/-- C9 (amended): `parse_toi` is total; every `MM:SS` input whose two fields
are plain digit strings evaluates to `MM + SS/60`, which is non-negative; and
every input either yields `0.0` or the value `mm + ss/60` of a signed parse. -/
theorem parse_toi_contract :
    (∀ a b : List Char, a ≠ [] → b ≠ [] →
        (∀ c ∈ a, c.isDigit) → (∀ c ∈ b, c.isDigit) →
        parse_toi ⟨a ++ ':' :: b⟩
            = ((digitsVal a : ℤ) : ℚ) + ((digitsVal b : ℤ) : ℚ) / 60
          ∧ 0 ≤ parse_toi ⟨a ++ ':' :: b⟩)
    ∧ ∀ s : String, parse_toi s = 0
        ∨ ∃ mm ss : ℤ, parse_toi s = (mm : ℚ) + (ss : ℚ) / 60 := by
  constructor
  · intro a b ha hb hda hdb
    have hsplit : splitColon (a ++ ':' :: b) = [a, b] := by
      rw [splitColon_append b fun h => absurd rfl (digit_ne_colon (hda ':' h)),
        splitColon_of_no_colon fun h => absurd rfl (digit_ne_colon (hdb ':' h))]
    have hval : parse_toi ⟨a ++ ':' :: b⟩
        = ((digitsVal a : ℤ) : ℚ) + ((digitsVal b : ℤ) : ℚ) / 60 := by
      simp only [parse_toi, hsplit, pyInt_of_digits hda ha, pyInt_of_digits hdb hb,
        if_neg (by simp : ¬(String.mk (a ++ ':' :: b)).data = [])]
    refine ⟨hval, ?_⟩
    rw [hval]
    have h1 : (0 : ℚ) ≤ ((digitsVal a : ℤ) : ℚ) := by positivity
    have h2 : (0 : ℚ) ≤ ((digitsVal b : ℤ) : ℚ) / 60 := by positivity
    linarith
  · intro s
    by_cases h0 : s.data = []
    · exact Or.inl (by simp [parse_toi, h0])
    · cases hsp : splitColon s.data with
      | nil => exact Or.inl (by simp [parse_toi, h0, hsp])
      | cons x rest =>
        cases rest with
        | nil => exact Or.inl (by simp [parse_toi, h0, hsp])
        | cons y rest2 =>
          cases rest2 with
          | cons z r3 => exact Or.inl (by simp [parse_toi, h0, hsp])
          | nil =>
            cases hx : pyInt x with
            | none => exact Or.inl (by simp [parse_toi, h0, hsp, hx])
            | some mm =>
              cases hy : pyInt y with
              | none => exact Or.inl (by simp [parse_toi, h0, hsp, hx, hy])
              | some ss => exact Or.inr ⟨mm, ss, by simp [parse_toi, h0, hsp, hx, hy]⟩

/-- C9 witness: the contract evaluated at the concrete input `"12:30"`. -/
theorem parse_toi_contract_witness :
    parse_toi ⟨['1', '2'] ++ ':' :: ['3', '0']⟩
        = ((digitsVal ['1', '2'] : ℤ) : ℚ) + ((digitsVal ['3', '0'] : ℤ) : ℚ) / 60
      ∧ 0 ≤ parse_toi ⟨['1', '2'] ++ ':' :: ['3', '0']⟩ :=
  parse_toi_contract.1 ['1', '2'] ['3', '0'] (by decide) (by decide) (by decide) (by decide)

/-- C1: under projection mode every counting metric (points, goals, assists,
plus/minus) is pace-projected at every game `g ∈ [1, N]` as
`(cum_val[g] / g) * 82`; the rolling value is `none` for the first nine games
and `(window_sum / 10) * 82` over the trailing ten-game window for `g ≥ 10`;
and rate-type metrics are never multiplied by 82, neither in the main series
nor in the rolling one. -/
theorem projection_counting_pace (gs : List Game) (m : MetricId)
    (hm : m = .points ∨ m = .goals ∨ m = .assists ∨ m = .plusMinus) :
    (∀ g : ℕ, 1 ≤ g → g ≤ gs.length →
        y_final .projection m gs g = cumAt (stat_val m) gs g / (g : ℚ) * 82)
    ∧ (∀ idx : ℕ, idx < 9 → roll_y_at m gs idx = none)
    ∧ (∀ g : ℕ, 10 ≤ g → g ≤ gs.length →
        roll_y_at m gs (g - 1)
          = some ((((gs.drop (g - 10)).take 10).map (stat_val m)).sum / 10 * 82))
    ∧ ∀ m2 : MetricId, is_rate m2 = true →
        (∀ g : ℕ, y_final .projection m2 gs g = res_at .projection m2 gs g)
        ∧ ∀ idx : ℕ, 9 ≤ idx →
            roll_y_at m2 gs idx = some (roll_res m2 ((gs.drop (idx - 9)).take 10)) := by
  refine ⟨?_, ?_, ?_, ?_⟩
  · intro g _ _
    rcases hm with rfl | rfl | rfl | rfl <;> rfl
  · intro idx h
    unfold roll_y_at
    rw [if_pos h]
  · intro g h10 _
    unfold roll_y_at
    rw [if_neg (by omega : ¬ g - 1 < 9)]
    rw [(by omega : g - 1 - 9 = g - 10)]
    rcases hm with rfl | rfl | rfl | rfl <;> rfl
  · intro m2 h2
    refine ⟨fun g => ?_, fun idx h9 => ?_⟩
    · simp [y_final, h2]
    · have hn : ¬ idx < 9 := by omega
      simp [roll_y_at, h2, hn]

/-- C1 witness: the pace and rolling equations evaluated on an 11-game log at
concrete indices, for `points` and for the rate metric `toi`. -/
theorem projection_counting_pace_witness :
    y_final .projection .points demoLog 11
        = cumAt (stat_val .points) demoLog 11 / (11 : ℚ) * 82
    ∧ roll_y_at .points demoLog 3 = none
    ∧ roll_y_at .points demoLog 9
        = some ((((demoLog.drop 0).take 10).map (stat_val .points)).sum / 10 * 82)
    ∧ y_final .projection .toi demoLog 5 = res_at .projection .toi demoLog 5
    ∧ roll_y_at .toi demoLog 9 = some (roll_res .toi ((demoLog.drop 0).take 10)) := by
  obtain ⟨h1, h2, h3, h4⟩ := projection_counting_pace demoLog .points (Or.inl rfl)
  obtain ⟨h5, h6⟩ := h4 .toi rfl
  exact ⟨h1 11 (by decide) (by decide), h2 3 (by decide), h3 10 (by decide) (by decide),
    h5 5, h6 9 (by decide)⟩

/-- C2: both rate metrics are computed from cumulative sums with a zero-guard:
`shootingPct` is `cum_goals/cum_shots*100` with value `0` when `cum_shots` is
zero, and `evenStrengthPct` is `(cum_points-cum_special)/cum_points*100` with
value `0` when `cum_points` is zero; being total functions they never fail. -/
theorem rate_metrics_from_cumulative (gs : List Game) (g : ℕ)
    (hs : ∀ r ∈ gs, 0 ≤ r.shots) (hp : ∀ r ∈ gs, 0 ≤ r.points) :
    (cumAt shotsQ gs g = 0 → y_final .projection .shootingPct gs g = 0)
    ∧ (cumAt shotsQ gs g ≠ 0 →
        y_final .projection .shootingPct gs g
          = cumAt goalsQ gs g / cumAt shotsQ gs g * 100)
    ∧ (cumAt pointsQ gs g = 0 → y_final .projection .evenStrengthPct gs g = 0)
    ∧ (cumAt pointsQ gs g ≠ 0 →
        y_final .projection .evenStrengthPct gs g
          = (cumAt pointsQ gs g - cumAt specQ gs g) / cumAt pointsQ gs g * 100) := by
  have hy1 : y_final .projection .shootingPct gs g
      = if 0 < cumAt shotsQ gs g then cumAt goalsQ gs g / cumAt shotsQ gs g * 100 else 0 :=
    rfl
  have hy2 : y_final .projection .evenStrengthPct gs g
      = if 0 < cumAt pointsQ gs g then
          (cumAt pointsQ gs g - cumAt specQ gs g) / cumAt pointsQ gs g * 100
        else 0 :=
    rfl
  have hsq : ∀ r ∈ gs, 0 ≤ shotsQ r := fun r hr => by
    unfold shotsQ; exact_mod_cast hs r hr
  have hpq : ∀ r ∈ gs, 0 ≤ pointsQ r := fun r hr => by
    unfold pointsQ; exact_mod_cast hp r hr
  refine ⟨?_, ?_, ?_, ?_⟩
  · intro h0
    rw [hy1, h0]
    simp
  · intro hne
    rw [hy1, if_pos (lt_of_le_of_ne (cumAt_nonneg hsq g) (Ne.symm hne))]
  · intro h0
    rw [hy2, h0]
    simp
  · intro hne
    rw [hy2, if_pos (lt_of_le_of_ne (cumAt_nonneg hpq g) (Ne.symm hne))]

/-- C2 witness: the guarded equations evaluated on the 11-game demo log at
game 2. -/
theorem rate_metrics_from_cumulative_witness :
    (cumAt shotsQ demoLog 2 = 0 → y_final .projection .shootingPct demoLog 2 = 0)
    ∧ (cumAt shotsQ demoLog 2 ≠ 0 →
        y_final .projection .shootingPct demoLog 2
          = cumAt goalsQ demoLog 2 / cumAt shotsQ demoLog 2 * 100)
    ∧ (cumAt pointsQ demoLog 2 = 0 → y_final .projection .evenStrengthPct demoLog 2 = 0)
    ∧ (cumAt pointsQ demoLog 2 ≠ 0 →
        y_final .projection .evenStrengthPct demoLog 2
          = (cumAt pointsQ demoLog 2 - cumAt specQ demoLog 2) / cumAt pointsQ demoLog 2
              * 100) :=
  rate_metrics_from_cumulative demoLog 2
    (fun r hr => by
      have h : r = demoGame := by simpa [demoLog] using hr
      subst h
      show (0 : ℤ) ≤ 3
      decide)
    (fun r hr => by
      have h : r = demoGame := by simpa [demoLog] using hr
      subst h
      show (0 : ℤ) ≤ 2
      decide)

/-- C5: under cumulative mode, for every metric of the mode whose per-game
scalar is non-negative on the log, the plotted series is non-decreasing in the
game index. -/
theorem cumulative_series_monotone (gs : List Game) (m : MetricId)
    (hm : m ∈ metricOptions Mode.cumulative)
    (hf : ∀ r ∈ gs, 0 ≤ stat_val m r)
    (g : ℕ) (_hg1 : 1 ≤ g) (_hgN : g + 1 ≤ gs.length) :
    y_final Mode.cumulative m gs g ≤ y_final Mode.cumulative m gs (g + 1) := by
  fin_cases hm <;> exact cumAt_le_succ hf g

/-- C5 witness: points on the 11-game demo log, from game 1 to game 2. -/
theorem cumulative_series_monotone_witness :
    y_final Mode.cumulative .points demoLog 1 ≤ y_final Mode.cumulative .points demoLog 2 :=
  cumulative_series_monotone demoLog .points (by decide)
    (fun r hr => by
      have h : r = demoGame := by simpa [demoLog] using hr
      subst h
      show (0 : ℚ) ≤ stat_val .points demoGame
      norm_num [stat_val, demoGame])
    1 (by decide) (by decide)

/-- C8 counterexample: a metric id outside cumulative mode's enumeration (the
distribution-only `pointsSit`) is not rejected — no assertion or exception
exists; the dispatch falls through to a zero scalar and the engine silently
returns the value `0` on a log whose real point total is `2`. -/
theorem unknown_metric_silent_counterexample :
    MetricId.pointsSit ∉ metricOptions Mode.cumulative
    ∧ stat_val .pointsSit demoGame = 0
    ∧ demoGame.points = 2
    ∧ y_final Mode.cumulative .pointsSit [demoGame] 1 = 0 := by
  refine ⟨by decide, rfl, rfl, ?_⟩
  show cumAt (stat_val .pointsSit) [demoGame] 1 = 0
  exact cumAt_of_zero_fn (fun r => rfl) [demoGame] 1

/-- C8 (amended): an out-of-mode metric id is not detected: the per-row
dispatch maps every distribution-mode id to the constant scalar `0`, so under
cumulative mode the engine produces an all-zero series instead of failing. -/
theorem unknown_metric_silently_zero (m : MetricId)
    (hm : m ∈ metricOptions Mode.distribution) :
    (∀ r : Game, stat_val m r = 0)
    ∧ ∀ (gs : List Game) (g : ℕ), y_final Mode.cumulative m gs g = 0 := by
  fin_cases hm <;>
    exact ⟨fun r => rfl, fun gs g => cumAt_of_zero_fn (fun r => rfl) gs g⟩

/-- C8 witness: the silent-zero behaviour evaluated for `pointsComp` under
cumulative mode on a one-game log. -/
theorem unknown_metric_silently_zero_witness :
    stat_val .pointsComp demoGame = 0
    ∧ y_final Mode.cumulative .pointsComp [demoGame] 1 = 0 := by
  obtain ⟨h1, h2⟩ := unknown_metric_silently_zero .pointsComp (by decide)
  exact ⟨h1 demoGame, h2 [demoGame] 1⟩

/-- Indices assigned by `buildRows` are consecutive starting at `n`. -/
lemma buildRows_map_game_number (rows : List RawGame) (l : List RawGame) :
    ∀ n : ℕ, (buildRows rows n l).map (fun r => r.game_number) = List.range' n l.length := by
  induction l with
  | nil => intro n; rfl
  | cons r rs ih =>
      intro n
      show (mkNorm rows n r :: buildRows rows (n + 1) rs).map (fun r => r.game_number)
          = List.range' n (rs.length + 1)
      rw [List.map_cons, ih (n + 1)]
      rfl

/-- `buildRows` keeps each record's game date, in order. -/
lemma buildRows_map_gameDate (rows : List RawGame) (l : List RawGame) :
    ∀ n : ℕ, (buildRows rows n l).map (fun r => r.gameDate) = l.map (fun r => r.gameDate) := by
  induction l with
  | nil => intro n; rfl
  | cons r rs ih =>
      intro n
      show (mkNorm rows n r :: buildRows rows (n + 1) rs).map (fun r => r.gameDate)
          = r.gameDate :: rs.map (fun r => r.gameDate)
      rw [List.map_cons, ih (n + 1)]
      rfl

/-- C4: whenever normalization of a non-empty raw log succeeds, the produced
sequence carries game numbers exactly `1..N` (contiguous, strictly increasing)
and is sorted ascending by game date (missing dates last). -/
theorem normalized_log_sorted_indexed (rows : List RawGame) (out : List NormRow)
    (_hne : rows ≠ []) (h : normalizeLog rows = .ok out) :
    out.map (fun r => r.game_number) = List.range' 1 rows.length
    ∧ out.Chain' (fun a b => dateLE a.gameDate b.gameDate) := by
  unfold normalizeLog at h
  by_cases h1 : hasCol rows (fun r => r.gameDate) = false
  · rw [if_pos h1] at h; simp at h
  · rw [if_neg h1] at h
    by_cases h2 : hasCol rows (fun r => r.toi) = false
    · rw [if_pos h2] at h; simp at h
    · rw [if_neg h2] at h
      have hout : buildRows rows 1 (List.insertionSort rowLE rows) = out := by
        simpa using h
      subst hout
      constructor
      · rw [buildRows_map_game_number, List.length_insertionSort]
      · have hpair : List.Pairwise rowLE (List.insertionSort rowLE rows) :=
          List.sorted_insertionSort rowLE rows
        have hchain :
            List.Chain' (fun a b : Option ℤ => dateLE a b)
              ((buildRows rows 1 (List.insertionSort rowLE rows)).map
                (fun r => r.gameDate)) := by
          rw [buildRows_map_gameDate, List.chain'_map]
          exact hpair.chain'
        exact (List.chain'_map (fun r : NormRow => r.gameDate)).mp hchain

/-- A concrete raw record with all fields present. -/
def rawA : RawGame :=
  { gameDate := some 5, toi := some "10:00", powerPlayToi := none, shorthandedToi := none,
    goals := some 1, assists := some 0, points := some 1, shots := some 2,
    plusMinus := some 1, powerPlayPoints := some 0, shorthandedPoints := some 0,
    powerPlayGoals := some 0, shorthandedGoals := some 0 }

/-- A second raw record, dated before `rawA` (the feed order is not
chronological). -/
def rawB : RawGame := { rawA with gameDate := some 3, toi := some "12:30" }

/-- A two-game raw log delivered out of date order. -/
def demoRaw : List RawGame := [rawA, rawB]

/-- C4 witness: normalizing the concrete out-of-order two-game log yields
indices `[1, 2]` and dates in ascending order. -/
theorem normalized_log_sorted_indexed_witness :
    (buildRows demoRaw 1 (List.insertionSort rowLE demoRaw)).map (fun r => r.game_number)
        = List.range' 1 demoRaw.length
    ∧ (buildRows demoRaw 1 (List.insertionSort rowLE demoRaw)).Chain'
        (fun a b => dateLE a.gameDate b.gameDate) :=
  normalized_log_sorted_indexed demoRaw _ (by decide) rfl

/-- A one-game log in which no record carries a `toi` field. -/
def noToiLog : List RawGame := [{ rawA with toi := none }]

/-- A one-game log with only date and clock: every numeric field absent. -/
def noNumsLog : List RawGame :=
  [{ gameDate := some 1, toi := some "10:00", powerPlayToi := none, shorthandedToi := none,
     goals := none, assists := none, points := none, shots := none, plusMinus := none,
     powerPlayPoints := none, shorthandedPoints := none, powerPlayGoals := none,
     shorthandedGoals := none }]

/-- C6: the normalizer raises `KeyError` (instead of defaulting to `"00:00"`)
when the `toi` field is absent from every record, because `df['toi']` is a
direct column access; by contrast absent numeric columns are defaulted to 0 as
the claim states. -/
theorem missing_toi_column_raises :
    normalizeLog noToiLog = .error "KeyError: toi"
    ∧ ∃ l, normalizeLog noNumsLog = .ok l ∧ l.map (fun r => r.goals) = [some 0] :=
  ⟨rfl, buildRows noNumsLog 1 (List.insertionSort rowLE noNumsLog), rfl, rfl⟩

/-- C7: a selection whose fetched game log is present but empty (`gameLog: []`)
aborts the whole analysis run with a `KeyError` (the empty DataFrame has no
`gameDate` column) instead of being silently omitted; selections with no log
at all are skipped, and 0 selections produce an empty result. -/
theorem empty_game_log_aborts_run :
    processSelections [some []] = .error "KeyError: gameDate"
    ∧ processSelections [] = .ok []
    ∧ processSelections [none, none, none] = .ok [] :=
  ⟨rfl, rfl, rfl⟩

/-- C10: `add_player` leaves the selection list entirely unchanged when the
details fetch yields no data or three selections already exist. -/
theorem add_player_error_leaves_state (players : List Selection)
    (details : Option PlayerDetails) (pdata : PlayerData)
    (h : details = none ∨ 3 ≤ players.length) :
    add_player players details pdata = players := by
  unfold add_player
  rcases h with rfl | h3
  · by_cases h3 : 3 ≤ players.length
    · rw [if_pos h3]
    · rw [if_neg h3]
  · rw [if_pos h3]

/-- A concrete search-result payload. -/
def demoPData : PlayerData := { playerId := 1, name := none, teamAbbrev := none }

/-- C10 witness: a failed details fetch leaves the empty selection list
unchanged. -/
theorem add_player_error_leaves_state_witness :
    add_player [] none demoPData = [] :=
  add_player_error_leaves_state [] none demoPData (Or.inl rfl)

end NHLApp
